import Mathlib

/-!
Verification of the radial lattice ("celosía") scene scripts.

The definitions below are a shallow embedding of the algorithmic core of
`js/main.js` (the unnamed variant `part_000`): the radial lattice layout
engine `crearCelosiaRadial`, the instance registry manipulated by `loadSVG`
and `regenerarCelosia`, the keyboard parameter controller `handleKeyDown`,
and the spin animation in `animate`.  JavaScript numbers are modelled as
exact rationals (ℚ); angles and positions, which involve π and trig, are
interpreted in ℝ by the functions `anguloBase`, `posOf`, `rotOf`.
-/

namespace GeoVisual

/-- The seven adjustable lattice parameters (the module-level variables
`numRepeticiones`, `distanciaRepeticiones`, `escalaUniforme`, `alturaZ`,
`offsetAngular`, `desplazamientoRadial`, `factorPajaritas`). -/
structure Params where
  numRepeticiones : ℕ
  distanciaRepeticiones : ℚ
  escalaUniforme : ℚ
  alturaZ : ℚ
  offsetAngular : ℚ
  desplazamientoRadial : ℚ
  factorPajaritas : ℚ
deriving DecidableEq

/-- JavaScript `Math.round`: round half toward positive infinity. -/
def jround (q : ℚ) : ℤ := ⌊q + 1/2⌋

/-- `radioBase` from `crearCelosiaRadial`: the inner ring radius constant. -/
def radioBase : ℚ := 1

/-- `numPajaritasBase`: the fixed inner-ring instance count. -/
def numPajaritasBase : ℕ := 6

/-- `const distancia = (distanciaRepeticiones * rep) + (desplazamientoRadial * rep)`. -/
def distanciaAnillo (p : Params) (rep : ℕ) : ℚ :=
  p.distanciaRepeticiones * rep + p.desplazamientoRadial * rep

/-- `Math.max(numPajaritasBase, Math.round(numPajaritasBase * (distancia/radioBase) * factorPajaritas))`. -/
def numPajaritasAnillo (p : Params) (rep : ℕ) : ℕ :=
  (max (numPajaritasBase : ℤ)
    (jround (numPajaritasBase * (distanciaAnillo p rep / radioBase) * p.factorPajaritas))).toNat

/-- The tag passed to `loadSVG`: `'interior'` or `'celosia'`. -/
inductive Tipo
  | interior
  | celosia
deriving DecidableEq

/-- Exact record of one `loadSVG` call: the numeric arguments
(rotation, position, scale) are kept in symbolic rational form —
`slot`, `nPaj`, `angOff`, `rotPlusPi` encode the angles so that the real
valued position/rotation are recovered by `posOf` / `rotOf`.
`ringIdx` records the loop variable `rep` (0 for the inner ring). -/
structure Desc where
  tipo : Tipo
  ringIdx : ℕ
  slot : ℕ
  nPaj : ℕ
  distancia : ℚ
  angOff : ℚ
  zPos : ℚ
  escala : ℚ
  rotPlusPi : Bool
  indice : ℕ
deriving DecidableEq

/-- The descriptor emitted by iteration `i` of ring `rep` in
`crearCelosiaRadial`: rotation argument `i % 2 === 0 ? angulo : angulo + π`,
position `(distancia·cos(angulo + offsetAngular·rep), …, alturaZ·rep)`,
color index `i + rep * numPajaritasAnillo`. -/
def mkDescCelosia (p : Params) (rep i : ℕ) : Desc :=
  { tipo := Tipo.celosia
    ringIdx := rep
    slot := i
    nPaj := numPajaritasAnillo p rep
    distancia := distanciaAnillo p rep
    angOff := p.offsetAngular * rep
    zPos := p.alturaZ * rep
    escala := p.escalaUniforme
    rotPlusPi := decide (i % 2 = 1)
    indice := i + rep * numPajaritasAnillo p rep }

/-- The descriptor of inner-ring instance `i` from `crearAnilloInterior`:
`loadSVG(url, i * 2π/6, 6, 0, 0, 0, 1.0, 'interior', i)`. -/
def descInterior (i : ℕ) : Desc :=
  { tipo := Tipo.interior
    ringIdx := 0
    slot := i
    nPaj := numPajaritasBase
    distancia := 0
    angOff := 0
    zPos := 0
    escala := 1
    rotPlusPi := false
    indice := i }

/-- All descriptors of ring `rep` in slot order. -/
def ringDescs (p : Params) (rep : ℕ) : List Desc :=
  (List.range (numPajaritasAnillo p rep)).map (mkDescCelosia p rep)

/-- Rings `1..k` in ring-major order (the outer loop of `crearCelosiaRadial`). -/
def celosiaUpTo (p : Params) : ℕ → List Desc
  | 0 => []
  | k + 1 => celosiaUpTo p k ++ ringDescs p (k + 1)

/-- The radial lattice layout engine `crearCelosiaRadial`: the ordered list
of `loadSVG` calls it performs (ring-major, then slot-minor). -/
def crearCelosiaRadial (p : Params) : List Desc :=
  celosiaUpTo p p.numRepeticiones

/-- `crearAnilloInterior`: the six fixed inner-ring `loadSVG` calls. -/
def crearAnilloInterior : List Desc :=
  (List.range numPajaritasBase).map descInterior

/-- `angleStep = 2π / numPajaritas`. -/
noncomputable def angleStep (n : ℕ) : ℝ := 2 * Real.pi / n

/-- `angulo = i * angleStep`: the un-offset base angle of a descriptor. -/
noncomputable def anguloBase (d : Desc) : ℝ := d.slot * angleStep d.nPaj

/-- `anguloAjustado = angulo + offsetAngular * rep`. -/
noncomputable def anguloAjustado (d : Desc) : ℝ := anguloBase d + d.angOff

/-- The world position passed to `loadSVG`:
`(distancia*cos(anguloAjustado), distancia*sin(anguloAjustado), alturaZ*rep)`. -/
noncomputable def posOf (d : Desc) : ℝ × ℝ × ℝ :=
  ((d.distancia : ℝ) * Real.cos (anguloAjustado d),
   (d.distancia : ℝ) * Real.sin (anguloAjustado d),
   (d.zPos : ℝ))

/-- The rotation argument passed to `loadSVG`:
`i % 2 === 0 ? angulo : angulo + Math.PI`. -/
noncomputable def rotOf (d : Desc) : ℝ :=
  anguloBase d + (if d.rotPlusPi then Real.pi else 0)

/-- `colorIndex = Math.floor(indice / numPajaritas) + (indice % numPajaritas)`
from the `'celosia'` branch of `loadSVG`. -/
def colorIndexOf (indice nPaj : ℕ) : ℕ := indice / nPaj + indice % nPaj

/-- `colorIndex % 2 === 0`: `true` picks the first lattice color `0x8A9D35`
(class A), `false` the second `0xC09A60` (class B). -/
def colorClassA (d : Desc) : Bool := decide (colorIndexOf d.indice d.nPaj % 2 = 0)

/-- Flat position of slot `i` of ring `r` in the engine's output list
(ring-major, then slot-minor). -/
def flatIdx (p : Params) (r i : ℕ) : ℕ := (celosiaUpTo p (r - 1)).length + i

/-- Example parameter set used by the concrete witnesses below:
one ring, spacing 1, scale 1, no height/offsets, density 1. -/
def pEjemplo : Params := ⟨1, 1, 1, 0, 0, 0, 1⟩

/-! ### The instance registry

`loadSVG` pushes, for every materialized instance, one entry to each of the
module-level arrays `centerMarkers`, `pivotMarkers`, `connectionLines`,
`originalRotations` and `objects`, and adds one `pivotGroup` to the scene.
Marker/line/scene entries are modelled by the id of the owning instance;
the current Z rotation `rotation.z` is kept symbolically as
`rotOf base + extra` (only global spin ever changes it, by `+= 0.01`). -/

/-- A symbolic Z-rotation value: the real number `rotOf base + extra`. -/
structure RotVal where
  base : Desc
  extra : ℚ
deriving DecidableEq

/-- The real rotation represented by a `RotVal`. -/
noncomputable def realRot (v : RotVal) : ℝ := rotOf v.base + v.extra

/-- One `svgRotator` entry of the `objects` array: the pivot group id, the
descriptor it was created from, the current `rotation.z`, and
`rotateZ.active`. -/
structure Obj where
  id : ℕ
  desc : Desc
  rotZ : RotVal
  spinActive : Bool
deriving DecidableEq

/-- `rotateZ.speed` of every created object. -/
def spinSpeed : ℚ := 1/100

/-- The mutable module state: the parallel arrays and the scene. -/
structure St where
  objects : List Obj
  centerMarkers : List ℕ
  pivotMarkers : List ℕ
  connectionLines : List ℕ
  originalRotations : List (ℕ × RotVal)
  scene : List ℕ
  nextId : ℕ
deriving DecidableEq

/-- The empty startup state. -/
def st0 : St := ⟨[], [], [], [], [], [], 0⟩

/-- Completion of one `loadSVG` call for descriptor `d`: push one entry to
every parallel array, add the pivot group to the scene, record the initial
rotation. -/
def materialize (s : St) (d : Desc) : St :=
  { objects := s.objects ++ [⟨s.nextId, d, ⟨d, 0⟩, false⟩]
    centerMarkers := s.centerMarkers ++ [s.nextId]
    pivotMarkers := s.pivotMarkers ++ [s.nextId]
    connectionLines := s.connectionLines ++ [s.nextId]
    originalRotations := s.originalRotations ++ [(s.nextId, ⟨d, 0⟩)]
    scene := s.scene ++ [s.nextId]
    nextId := s.nextId + 1 }

/-- Completion of a list of `loadSVG` calls in issue order. -/
def materializeAll (s : St) (ds : List Desc) : St := ds.foldl materialize s

/-- `objects.indexOf(obj)` by pivot-group id: index of the first match. -/
def buscarIdx (t : ℕ) : List Obj → Option ℕ
  | [] => none
  | o :: l => if o.id = t then some 0 else (buscarIdx t l).map (fun k => k + 1)

/-- `scene.remove(obj.object)`: drop the first occurrence of the group. -/
def quitar (t : ℕ) : List ℕ → List ℕ
  | [] => []
  | x :: l => if x = t then l else x :: quitar t l

/-- The `objects.splice(index, 1)` part of one removal, on a plain list. -/
def removeCore (t : ℕ) (l : List Obj) : List Obj :=
  match buscarIdx t l with
  | none => l
  | some k => l.eraseIdx k

/-- One iteration of the removal loop of `regenerarCelosia`: remove the
group from the scene, then splice the found index out of `centerMarkers`,
`pivotMarkers`, `connectionLines` and `objects`.  `originalRotations` is
not touched — exactly as in the source. -/
def removeOne (s : St) (t : ℕ) : St :=
  match buscarIdx t s.objects with
  | none => { s with scene := quitar t s.scene }
  | some k =>
      { s with
        objects := s.objects.eraseIdx k
        centerMarkers := s.centerMarkers.eraseIdx k
        pivotMarkers := s.pivotMarkers.eraseIdx k
        connectionLines := s.connectionLines.eraseIdx k
        scene := quitar t s.scene }

/-- The full removal loop over a pre-computed list of targets. -/
def removeAll (s : St) (ts : List ℕ) : St := ts.foldl removeOne s

/-- The object-list effect of the whole removal loop. -/
def removeCoreAll (l : List Obj) (ts : List ℕ) : List Obj :=
  ts.foldl (fun acc t => removeCore t acc) l

/-- `obj.tipo === 'celosia'`. -/
def esCelosia (o : Obj) : Bool :=
  match o.desc.tipo with
  | Tipo.celosia => true
  | Tipo.interior => false

/-- `regenerarCelosia`: filter the current lattice instances, remove each of
them from the scene and the parallel arrays, then re-run
`crearCelosiaRadial` (all of its `loadSVG` calls completing in order). -/
def regenerarCelosia (p : Params) (s : St) : St :=
  materializeAll (removeAll s ((s.objects.filter esCelosia).map Obj.id)) (crearCelosiaRadial p)

/-- `createObjects` at startup: the six inner-ring `loadSVG` calls of
`crearAnilloInterior`, then the lattice of `crearCelosiaRadial`. -/
def initSt (p : Params) : St := materializeAll st0 (crearAnilloInterior ++ crearCelosiaRadial p)

/-- `originalRotations.find(rot => rot.object === obj.object)`. -/
def buscarRot (t : ℕ) : List (ℕ × RotVal) → Option RotVal
  | [] => none
  | e :: l => if e.1 = t then some e.2 else buscarRot t l

/-- Per-object effect of the `R` key: an active object is stopped and its
rotation restored to the recorded initial one (left untouched when no
record is found); an inactive object is started. -/
def pressRF (rots : List (ℕ × RotVal)) (o : Obj) : Obj :=
  if o.spinActive then
    { o with
      spinActive := false
      rotZ := match buscarRot o.id rots with
        | some v => v
        | none => o.rotZ }
  else { o with spinActive := true }

/-- The `R` key handler: toggle every object. -/
def pressR (s : St) : St :=
  { s with objects := s.objects.map (pressRF s.originalRotations) }

/-- `rotation.z += rotateZ.speed`. -/
def bumpRot (v : RotVal) : RotVal := ⟨v.base, v.extra + spinSpeed⟩

/-- Per-object effect of one `animate` tick. -/
def tickF (o : Obj) : Obj :=
  if o.spinActive then { o with rotZ := bumpRot o.rotZ } else o

/-- One `animate` tick: spin every active object by `speed`. -/
def tick (s : St) : St := { s with objects := s.objects.map tickF }

/-- `n` consecutive `animate` ticks. -/
def tickN (s : St) : ℕ → St
  | 0 => s
  | n + 1 => tick (tickN s n)

/-! ### Registry well-formedness -/

/-- The ids of the registered objects, in registry order. -/
def idsOf (s : St) : List ℕ := s.objects.map Obj.id

/-- The parallel arrays and the scene line up index-by-index with
`objects`, each entry belonging to the object at the same position. -/
def alineado (s : St) : Prop :=
  s.centerMarkers = idsOf s ∧ s.pivotMarkers = idsOf s ∧
  s.connectionLines = idsOf s ∧ s.scene = idsOf s

/-- No two registered objects share a pivot-group id. -/
def sinDuplicados (s : St) : Prop := (idsOf s).Nodup

/-- Every registered id predates the id counter. -/
def idsFrescos (s : St) : Prop := ∀ o ∈ s.objects, o.id < s.nextId

/-- A state in canonical aligned form, determined by its object list,
rotation records and id counter. -/
def alignedMk (l : List Obj) (rots : List (ℕ × RotVal)) (n : ℕ) : St :=
  ⟨l, l.map Obj.id, l.map Obj.id, l.map Obj.id, rots, l.map Obj.id, n⟩

/-- The objects created for a descriptor batch starting at id `n`. -/
def attachObjs (n : ℕ) : List Desc → List Obj
  | [] => []
  | d :: ds => ⟨n, d, ⟨d, 0⟩, false⟩ :: attachObjs (n + 1) ds

/-- The initial-rotation records created for a batch starting at id `n`. -/
def attachRots (n : ℕ) : List Desc → List (ℕ × RotVal)
  | [] => []
  | d :: ds => (n, ⟨d, 0⟩) :: attachRots (n + 1) ds

/-! ### The parameter controller -/

/-- The fixed step `incremento = 0.05` of `handleKeyDown`. -/
def incremento : ℚ := 1/20

/-- The parameter-mutating key actions of `handleKeyDown`
(keys 1/2, 3/4, 5/6, 7/8, 9/0, minus/plus, F/G). -/
inductive Accion
  | decRepeticiones
  | incRepeticiones
  | decDistancia
  | incDistancia
  | decEscala
  | incEscala
  | decAltura
  | incAltura
  | decOffsetAngular
  | incOffsetAngular
  | decRadial
  | incRadial
  | decFactor
  | incFactor
deriving DecidableEq

/-- The saturating parameter mutation performed by each key action. -/
def applyAccion : Accion → Params → Params
  | .decRepeticiones, p => { p with numRepeticiones := max 1 (p.numRepeticiones - 1) }
  | .incRepeticiones, p => { p with numRepeticiones := p.numRepeticiones + 1 }
  | .decDistancia, p =>
    { p with distanciaRepeticiones := max (1/5) (p.distanciaRepeticiones - incremento) }
  | .incDistancia, p => { p with distanciaRepeticiones := p.distanciaRepeticiones + incremento }
  | .decEscala, p => { p with escalaUniforme := max (1/10) (p.escalaUniforme - incremento) }
  | .incEscala, p => { p with escalaUniforme := min 3 (p.escalaUniforme + incremento) }
  | .decAltura, p => { p with alturaZ := max 0 (p.alturaZ - incremento) }
  | .incAltura, p => { p with alturaZ := p.alturaZ + incremento }
  | .decOffsetAngular, p => { p with offsetAngular := p.offsetAngular - incremento * (1/10) }
  | .incOffsetAngular, p => { p with offsetAngular := p.offsetAngular + incremento * (1/10) }
  | .decRadial, p => { p with desplazamientoRadial := p.desplazamientoRadial - incremento }
  | .incRadial, p => { p with desplazamientoRadial := p.desplazamientoRadial + incremento }
  | .decFactor, p => { p with factorPajaritas := max 1 (p.factorPajaritas - 1/10) }
  | .incFactor, p => { p with factorPajaritas := p.factorPajaritas + 1/10 }

/-- The parameter invariants of the spec (§3). -/
def invariantes (p : Params) : Prop :=
  1 ≤ p.numRepeticiones ∧ 1/5 ≤ p.distanciaRepeticiones ∧
  1/10 ≤ p.escalaUniforme ∧ p.escalaUniforme ≤ 3 ∧
  0 ≤ p.alturaZ ∧ 1 ≤ p.factorPajaritas

/-- The lattice descriptors currently in the registry, in order. -/
def descsCelosia (s : St) : List Desc := (s.objects.filter esCelosia).map Obj.desc

/-- A small literal state used by the spin witness: one inner-ring object
at rest, with its initial-rotation record. -/
def descEj : Desc := descInterior 0

/-- The recorded rest rotation of the witness object. -/
def vEj : RotVal := ⟨descEj, 0⟩

/-- The witness object: id 0, at rest, not spinning. -/
def objEj : Obj := ⟨0, descEj, vEj, false⟩

/-- The witness registry state holding just `objEj`. -/
def sEj : St := ⟨[objEj], [0], [0], [0], [(0, vEj)], [0], 1⟩

/-! ### Lemmas about the layout engine -/

theorem length_ringDescs (p : Params) (rep : ℕ) :
    (ringDescs p rep).length = numPajaritasAnillo p rep := by
  simp [ringDescs]

theorem get?_ringDescs (p : Params) (rep i : ℕ) (h : i < numPajaritasAnillo p rep) :
    (ringDescs p rep).get? i = some (mkDescCelosia p rep i) := by
  rw [ringDescs, List.get?_map, List.get?_range h]
  rfl

theorem length_celosiaUpTo_succ (p : Params) (k : ℕ) :
    (celosiaUpTo p (k + 1)).length = (celosiaUpTo p k).length + numPajaritasAnillo p (k + 1) := by
  simp [celosiaUpTo, length_ringDescs]

theorem length_celosiaUpTo_mono (p : Params) {j k : ℕ} (h : j ≤ k) :
    (celosiaUpTo p j).length ≤ (celosiaUpTo p k).length := by
  induction k with
  | zero =>
    have hj : j = 0 := Nat.le_zero.mp h
    simp [hj]
  | succ n ih =>
    rcases Nat.lt_or_ge j (n + 1) with h' | h'
    · have := ih (Nat.lt_succ_iff.mp h')
      rw [length_celosiaUpTo_succ]
      omega
    · have hj : j = n + 1 := le_antisymm h h'
      simp [hj]

theorem flatIdx_lt (p : Params) (r i : ℕ) (hr : 1 ≤ r) (hi : i < numPajaritasAnillo p r) :
    flatIdx p r i < (celosiaUpTo p r).length := by
  obtain ⟨m, rfl⟩ : ∃ m, r = m + 1 := ⟨r - 1, by omega⟩
  rw [length_celosiaUpTo_succ]
  simp only [flatIdx, Nat.add_sub_cancel]
  omega

theorem get?_celosiaUpTo (p : Params) (r i : ℕ) (hr : 1 ≤ r)
    (hi : i < numPajaritasAnillo p r) :
    ∀ k, r ≤ k → (celosiaUpTo p k).get? (flatIdx p r i) = some (mkDescCelosia p r i) := by
  intro k
  induction k with
  | zero => omega
  | succ n ih =>
    intro hk
    rcases Nat.lt_or_ge n r with hlt | hge
    · have hr' : r = n + 1 := by omega
      subst hr'
      show (celosiaUpTo p n ++ ringDescs p (n + 1)).get? (flatIdx p (n + 1) i) = _
      have hf : flatIdx p (n + 1) i = (celosiaUpTo p n).length + i := by
        simp [flatIdx]
      rw [hf, List.get?_append_right (Nat.le_add_right _ _)]
      simpa using get?_ringDescs p (n + 1) i hi
    · have hmem : flatIdx p r i < (celosiaUpTo p n).length :=
        lt_of_lt_of_le (flatIdx_lt p r i hr hi) (length_celosiaUpTo_mono p hge)
      show (celosiaUpTo p n ++ ringDescs p (n + 1)).get? (flatIdx p r i) = _
      rw [List.get?_append hmem]
      exact ih hge

theorem get?_crearCelosiaRadial (p : Params) (r i : ℕ) (hr : 1 ≤ r)
    (hrc : r ≤ p.numRepeticiones) (hi : i < numPajaritasAnillo p r) :
    (crearCelosiaRadial p).get? (flatIdx p r i) = some (mkDescCelosia p r i) :=
  get?_celosiaUpTo p r i hr hi p.numRepeticiones hrc

theorem numPaj_pEjemplo : numPajaritasAnillo pEjemplo 1 = 6 := by
  norm_num [numPajaritasAnillo, distanciaAnillo, jround, radioBase, numPajaritasBase, pEjemplo]
  rfl

/-! ### Lemmas about the instance registry -/

theorem mapEraseIdx {α β : Type} (f : α → β) :
    ∀ (l : List α) (k : ℕ), (l.map f).eraseIdx k = (l.eraseIdx k).map f := by
  intro l
  induction l with
  | nil => intro k; rfl
  | cons x xs ih =>
    intro k
    cases k with
    | zero => rfl
    | succ n =>
      show f x :: (xs.map f).eraseIdx n = f x :: (xs.eraseIdx n).map f
      rw [ih n]

theorem buscarIdx_none {t : ℕ} :
    ∀ {l : List Obj}, buscarIdx t l = none → ∀ o ∈ l, o.id ≠ t := by
  intro l
  induction l with
  | nil => simp
  | cons x xs ih =>
    intro h o hm
    have hx : ¬ (x.id = t) := by
      intro he
      simp [buscarIdx, he] at h
    rcases List.mem_cons.mp hm with rfl | hm'
    · exact hx
    · have hnone : buscarIdx t xs = none := by
        simpa [buscarIdx, hx] using h
      exact ih hnone o hm'

theorem quitar_of_forall_ne {t : ℕ} :
    ∀ {l : List ℕ}, (∀ x ∈ l, x ≠ t) → quitar t l = l := by
  intro l
  induction l with
  | nil => intro _; rfl
  | cons x xs ih =>
    intro h
    have hx : ¬ (x = t) := h x (List.mem_cons_self x xs)
    simp [quitar, hx, ih (fun y hy => h y (List.mem_cons_of_mem x hy))]

theorem quitar_map_of_buscarIdx {t : ℕ} :
    ∀ {l : List Obj} {k : ℕ}, buscarIdx t l = some k →
      quitar t (l.map Obj.id) = (l.map Obj.id).eraseIdx k := by
  intro l
  induction l with
  | nil => intro k h; simp [buscarIdx] at h
  | cons x xs ih =>
    intro k h
    by_cases hx : x.id = t
    · have hk : k = 0 := by simpa [buscarIdx, hx] using h.symm
      subst hk
      simp [quitar, hx]
    · obtain ⟨k', hk', rfl⟩ : ∃ k', buscarIdx t xs = some k' ∧ k' + 1 = k := by
        simpa [buscarIdx, hx] using h
      simp [quitar, hx, ih hk']

theorem removeCore_cons_self {x : Obj} {xs : List Obj} {t : ℕ} (h : x.id = t) :
    removeCore t (x :: xs) = xs := by
  simp [removeCore, buscarIdx, h]

theorem removeCore_cons_ne {x : Obj} {xs : List Obj} {t : ℕ} (h : ¬ x.id = t) :
    removeCore t (x :: xs) = x :: removeCore t xs := by
  unfold removeCore
  cases hb : buscarIdx t xs with
  | none => simp [buscarIdx, h, hb]
  | some k => simp [buscarIdx, h, hb]

theorem removeCoreAll_nil (l : List Obj) : removeCoreAll l [] = l := rfl

theorem removeCoreAll_cons (l : List Obj) (t : ℕ) (ts : List ℕ) :
    removeCoreAll l (t :: ts) = removeCoreAll (removeCore t l) ts := rfl

theorem removeCoreAll_cons_of_ne {x : Obj} :
    ∀ {ts : List ℕ}, (∀ t ∈ ts, t ≠ x.id) → ∀ (xs : List Obj),
      removeCoreAll (x :: xs) ts = x :: removeCoreAll xs ts := by
  intro ts
  induction ts with
  | nil => intro _ xs; rfl
  | cons t ts ih =>
    intro h xs
    have hx : ¬ (x.id = t) := fun he => h t (List.mem_cons_self t ts) he.symm
    rw [removeCoreAll_cons, removeCore_cons_ne hx, removeCoreAll_cons]
    exact ih (fun u hu => h u (List.mem_cons_of_mem t hu)) (removeCore t xs)

theorem removeCoreAll_filter (P : Obj → Bool) :
    ∀ (l : List Obj), (l.map Obj.id).Nodup →
      removeCoreAll l ((l.filter P).map Obj.id) = l.filter (fun o => !(P o)) := by
  intro l
  induction l with
  | nil => intro _; rfl
  | cons x xs ih =>
    intro hnd
    rw [List.map_cons, List.nodup_cons] at hnd
    obtain ⟨hx, hxs⟩ := hnd
    by_cases hp : P x
    · rw [List.filter_cons_of_pos hp, List.map_cons, removeCoreAll_cons,
        removeCore_cons_self rfl, ih hxs, List.filter_cons_of_neg (by simp [hp])]
    · have hall : ∀ t ∈ (xs.filter P).map Obj.id, t ≠ x.id := by
        intro t ht he
        subst he
        obtain ⟨o, ho, hid⟩ := List.mem_map.mp ht
        exact hx (hid ▸ List.mem_map_of_mem Obj.id (List.mem_of_mem_filter ho))
      rw [List.filter_cons_of_neg hp, removeCoreAll_cons_of_ne hall, ih hxs,
        List.filter_cons_of_pos (by simp [hp])]

theorem removeOne_alignedMk (l : List Obj) (rots : List (ℕ × RotVal)) (n t : ℕ) :
    removeOne (alignedMk l rots n) t = alignedMk (removeCore t l) rots n := by
  unfold removeOne removeCore
  cases h : buscarIdx t ((alignedMk l rots n).objects) with
  | none =>
    have h' : buscarIdx t l = none := h
    have hq : quitar t (l.map Obj.id) = l.map Obj.id :=
      quitar_of_forall_ne (by
        intro x hxm
        obtain ⟨o, ho, rfl⟩ := List.mem_map.mp hxm
        exact buscarIdx_none h' o ho)
    simp [alignedMk, hq, h']
  | some k =>
    have h' : buscarIdx t l = some k := h
    simp [alignedMk, h', mapEraseIdx, quitar_map_of_buscarIdx h']

theorem removeAll_alignedMk (rots : List (ℕ × RotVal)) :
    ∀ (ts : List ℕ) (l : List Obj) (n : ℕ),
      removeAll (alignedMk l rots n) ts = alignedMk (removeCoreAll l ts) rots n := by
  intro ts
  induction ts with
  | nil => intro l n; rfl
  | cons t ts ih =>
    intro l n
    show removeAll (removeOne (alignedMk l rots n) t) ts = _
    rw [removeOne_alignedMk, ih, removeCoreAll_cons]

theorem materialize_alignedMk (l : List Obj) (rots : List (ℕ × RotVal)) (n : ℕ) (d : Desc) :
    materialize (alignedMk l rots n) d =
      alignedMk (l ++ [⟨n, d, ⟨d, 0⟩, false⟩]) (rots ++ [(n, ⟨d, 0⟩)]) (n + 1) := by
  simp [materialize, alignedMk]

theorem materializeAll_alignedMk :
    ∀ (ds : List Desc) (l : List Obj) (rots : List (ℕ × RotVal)) (n : ℕ),
      materializeAll (alignedMk l rots n) ds =
        alignedMk (l ++ attachObjs n ds) (rots ++ attachRots n ds) (n + ds.length) := by
  intro ds
  induction ds with
  | nil =>
    intro l rots n
    simp [materializeAll, attachObjs, attachRots]
  | cons d ds ih =>
    intro l rots n
    show materializeAll (materialize (alignedMk l rots n) d) ds = _
    rw [materialize_alignedMk, ih]
    simp only [alignedMk, attachObjs, attachRots, List.append_assoc, List.singleton_append,
      List.length_cons]
    have hn : n + 1 + ds.length = n + (ds.length + 1) := by omega
    rw [hn]

theorem alineado_mk_eq {s : St} (h : alineado s) :
    s = alignedMk s.objects s.originalRotations s.nextId := by
  obtain ⟨h1, h2, h3, h4⟩ := h
  cases s
  simp_all [alignedMk, idsOf]

theorem alineado_alignedMk (l : List Obj) (rots : List (ℕ × RotVal)) (n : ℕ) :
    alineado (alignedMk l rots n) := by
  simp [alineado, alignedMk, idsOf]

theorem regen_alignedMk (p : Params) (l : List Obj) (rots : List (ℕ × RotVal)) (n : ℕ)
    (hnd : (l.map Obj.id).Nodup) :
    regenerarCelosia p (alignedMk l rots n) =
      alignedMk (l.filter (fun o => !(esCelosia o)) ++ attachObjs n (crearCelosiaRadial p))
        (rots ++ attachRots n (crearCelosiaRadial p))
        (n + (crearCelosiaRadial p).length) := by
  unfold regenerarCelosia
  have htargets : ((alignedMk l rots n).objects.filter esCelosia).map Obj.id
      = (l.filter esCelosia).map Obj.id := rfl
  rw [htargets]
  show materializeAll (removeAll (alignedMk l rots n) ((l.filter esCelosia).map Obj.id)) _ = _
  rw [removeAll_alignedMk, removeCoreAll_filter esCelosia l hnd, materializeAll_alignedMk]

theorem regen_eq (p : Params) {s : St} (ha : alineado s) (hnd : sinDuplicados s) :
    regenerarCelosia p s =
      alignedMk (s.objects.filter (fun o => !(esCelosia o)) ++ attachObjs s.nextId (crearCelosiaRadial p))
        (s.originalRotations ++ attachRots s.nextId (crearCelosiaRadial p))
        (s.nextId + (crearCelosiaRadial p).length) := by
  have h0 := regen_alignedMk p s.objects s.originalRotations s.nextId hnd
  rw [← alineado_mk_eq ha] at h0
  exact h0

/-! ### Lemmas about the created batches -/

theorem attachObjs_map_desc : ∀ (ds : List Desc) (n : ℕ), (attachObjs n ds).map Obj.desc = ds := by
  intro ds
  induction ds with
  | nil => intro n; rfl
  | cons d ds ih =>
    intro n
    simp [attachObjs, ih]

theorem attachObjs_map_id :
    ∀ (ds : List Desc) (n : ℕ), (attachObjs n ds).map Obj.id = List.range' n ds.length := by
  intro ds
  induction ds with
  | nil => intro n; rfl
  | cons d ds ih =>
    intro n
    simp [attachObjs, List.range', ih]

theorem esCelosia_true_iff (o : Obj) : esCelosia o = true ↔ o.desc.tipo = Tipo.celosia := by
  cases h : o.desc.tipo <;> simp [esCelosia, h]

theorem crearCelosia_all_celosia (p : Params) :
    ∀ d ∈ crearCelosiaRadial p, d.tipo = Tipo.celosia := by
  unfold crearCelosiaRadial
  generalize p.numRepeticiones = k
  induction k with
  | zero => simp [celosiaUpTo]
  | succ m ih =>
    intro d hd
    simp only [celosiaUpTo] at hd
    rcases List.mem_append.mp hd with h1 | h2
    · exact ih d h1
    · simp only [ringDescs] at h2
      obtain ⟨i, _, rfl⟩ := List.mem_map.mp h2
      rfl

theorem anillo_all_interior : ∀ d ∈ crearAnilloInterior, d.tipo = Tipo.interior := by
  intro d hd
  obtain ⟨i, _, rfl⟩ := List.mem_map.mp hd
  rfl

theorem attachObjs_filter_celosia {ds : List Desc}
    (hall : ∀ d ∈ ds, d.tipo = Tipo.celosia) :
    ∀ n : ℕ, (attachObjs n ds).filter esCelosia = attachObjs n ds ∧
      (attachObjs n ds).filter (fun o => !(esCelosia o)) = [] := by
  induction ds with
  | nil => intro n; exact ⟨rfl, rfl⟩
  | cons d ds ih =>
    intro n
    have hd : d.tipo = Tipo.celosia := hall d (List.mem_cons_self d ds)
    have hcel : esCelosia (⟨n, d, ⟨d, 0⟩, false⟩ : Obj) = true := by
      rw [esCelosia_true_iff]
      exact hd
    have ihn := ih (fun x hx => hall x (List.mem_cons_of_mem d hx)) (n + 1)
    constructor
    · rw [show attachObjs n (d :: ds) = ⟨n, d, ⟨d, 0⟩, false⟩ :: attachObjs (n + 1) ds from rfl,
        List.filter_cons_of_pos hcel, ihn.1]
    · rw [show attachObjs n (d :: ds) = ⟨n, d, ⟨d, 0⟩, false⟩ :: attachObjs (n + 1) ds from rfl,
        List.filter_cons_of_neg (by simp [hcel]), ihn.2]

theorem attachObjs_append :
    ∀ (ds es : List Desc) (n : ℕ),
      attachObjs n (ds ++ es) = attachObjs n ds ++ attachObjs (n + ds.length) es := by
  intro ds
  induction ds with
  | nil => intro es n; simp [attachObjs]
  | cons d ds ih =>
    intro es n
    show (⟨n, d, ⟨d, 0⟩, false⟩ : Obj) :: attachObjs (n + 1) (ds ++ es)
        = (⟨n, d, ⟨d, 0⟩, false⟩ :: attachObjs (n + 1) ds) ++ attachObjs (n + (ds.length + 1)) es
    rw [List.cons_append, ih es (n + 1)]
    have hn : n + 1 + ds.length = n + (ds.length + 1) := by omega
    rw [hn]

theorem attachObjs_filter_interior {ds : List Desc}
    (hall : ∀ d ∈ ds, d.tipo = Tipo.interior) :
    ∀ n : ℕ, (attachObjs n ds).filter (fun o => !(esCelosia o)) = attachObjs n ds ∧
      (attachObjs n ds).filter esCelosia = [] := by
  induction ds with
  | nil => intro n; exact ⟨rfl, rfl⟩
  | cons d ds ih =>
    intro n
    have hd : d.tipo = Tipo.interior := hall d (List.mem_cons_self d ds)
    have hcel : esCelosia (⟨n, d, ⟨d, 0⟩, false⟩ : Obj) = false := by
      simp [esCelosia, hd]
    have ihn := ih (fun x hx => hall x (List.mem_cons_of_mem d hx)) (n + 1)
    constructor
    · rw [show attachObjs n (d :: ds) = ⟨n, d, ⟨d, 0⟩, false⟩ :: attachObjs (n + 1) ds from rfl,
        List.filter_cons_of_pos (by simp [hcel]), ihn.1]
    · rw [show attachObjs n (d :: ds) = ⟨n, d, ⟨d, 0⟩, false⟩ :: attachObjs (n + 1) ds from rfl,
        List.filter_cons_of_neg (by simp [hcel]), ihn.2]

/-! ### Preservation of well-formedness -/

theorem alineado_regen (p : Params) {s : St} (ha : alineado s) :
    alineado (regenerarCelosia p s) := by
  rw [alineado_mk_eq ha]
  unfold regenerarCelosia
  rw [show ((alignedMk s.objects s.originalRotations s.nextId).objects.filter esCelosia).map Obj.id
      = (s.objects.filter esCelosia).map Obj.id from rfl]
  rw [removeAll_alignedMk, materializeAll_alignedMk]
  exact alineado_alignedMk _ _ _

theorem rots_regen (p : Params) {s : St} (ha : alineado s) :
    (regenerarCelosia p s).originalRotations
      = s.originalRotations ++ attachRots s.nextId (crearCelosiaRadial p) := by
  rw [alineado_mk_eq ha]
  unfold regenerarCelosia
  rw [show ((alignedMk s.objects s.originalRotations s.nextId).objects.filter esCelosia).map Obj.id
      = (s.objects.filter esCelosia).map Obj.id from rfl]
  rw [removeAll_alignedMk, materializeAll_alignedMk]
  rfl

theorem ids_regen (p : Params) {s : St} (ha : alineado s) (hnd : sinDuplicados s) :
    idsOf (regenerarCelosia p s)
      = (s.objects.filter (fun o => !(esCelosia o))).map Obj.id
        ++ List.range' s.nextId (crearCelosiaRadial p).length := by
  rw [regen_eq p ha hnd]
  show ((s.objects.filter (fun o => !(esCelosia o))
      ++ attachObjs s.nextId (crearCelosiaRadial p)).map Obj.id) = _
  rw [List.map_append, attachObjs_map_id]

theorem sinDuplicados_regen (p : Params) {s : St} (ha : alineado s) (hnd : sinDuplicados s)
    (hf : idsFrescos s) : sinDuplicados (regenerarCelosia p s) := by
  unfold sinDuplicados
  rw [ids_regen p ha hnd]
  apply List.Nodup.append
  · exact List.Nodup.sublist (List.Sublist.map Obj.id (List.filter_sublist _)) hnd
  · exact List.nodup_range' _ _
  · intro a h1 h2
    obtain ⟨o, ho, rfl⟩ := List.mem_map.mp h1
    have hlt : o.id < s.nextId := hf o (List.mem_of_mem_filter ho)
    have := (List.mem_range'_1.mp h2).1
    omega

theorem idsFrescos_regen (p : Params) {s : St} (ha : alineado s) (hnd : sinDuplicados s)
    (hf : idsFrescos s) : idsFrescos (regenerarCelosia p s) := by
  rw [regen_eq p ha hnd]
  intro o ho
  show o.id < s.nextId + (crearCelosiaRadial p).length
  rcases List.mem_append.mp ho with h1 | h2
  · have := hf o (List.mem_of_mem_filter h1)
    omega
  · have hm : o.id ∈ List.range' s.nextId (crearCelosiaRadial p).length := by
      rw [← attachObjs_map_id]
      exact List.mem_map_of_mem Obj.id h2
    exact (List.mem_range'_1.mp hm).2

theorem descsCelosia_regen (p : Params) {s : St} (ha : alineado s) (hnd : sinDuplicados s) :
    descsCelosia (regenerarCelosia p s) = crearCelosiaRadial p := by
  rw [regen_eq p ha hnd]
  unfold descsCelosia
  show ((s.objects.filter (fun o => !(esCelosia o))
      ++ attachObjs s.nextId (crearCelosiaRadial p)).filter esCelosia).map Obj.desc = _
  rw [List.filter_append]
  have h1 : (s.objects.filter (fun o => !(esCelosia o))).filter esCelosia = [] := by
    rw [List.filter_eq_nil]
    intro o ho
    have h := (List.mem_filter.mp ho).2
    simp at h
    simp [h]
  have h2 := (attachObjs_filter_celosia (crearCelosia_all_celosia p) s.nextId).1
  rw [h1, h2, List.nil_append, attachObjs_map_desc]

theorem regen_filter_nocel (p : Params) {s : St} (ha : alineado s) (hnd : sinDuplicados s) :
    (regenerarCelosia p s).objects.filter (fun o => !(esCelosia o))
      = s.objects.filter (fun o => !(esCelosia o)) := by
  rw [regen_eq p ha hnd]
  show (s.objects.filter (fun o => !(esCelosia o))
      ++ attachObjs s.nextId (crearCelosiaRadial p)).filter (fun o => !(esCelosia o)) = _
  rw [List.filter_append, (attachObjs_filter_celosia (crearCelosia_all_celosia p) s.nextId).2,
    List.append_nil]
  rw [List.filter_eq_self]
  intro o ho
  exact (List.mem_filter.mp ho).2

theorem alineado_initSt (q : Params) : alineado (initSt q) := by
  unfold initSt
  rw [show st0 = alignedMk [] [] 0 from rfl, materializeAll_alignedMk]
  exact alineado_alignedMk _ _ _

theorem sinDuplicados_initSt (q : Params) : sinDuplicados (initSt q) := by
  unfold sinDuplicados idsOf initSt
  rw [show st0 = alignedMk [] [] 0 from rfl, materializeAll_alignedMk]
  show ((([] : List Obj) ++ attachObjs 0 _).map Obj.id).Nodup
  rw [List.nil_append, attachObjs_map_id]
  exact List.nodup_range' _ _

theorem idsFrescos_initSt (q : Params) : idsFrescos (initSt q) := by
  unfold initSt
  rw [show st0 = alignedMk [] [] 0 from rfl, materializeAll_alignedMk]
  intro o ho
  show o.id < 0 + (crearAnilloInterior ++ crearCelosiaRadial q).length
  rw [List.nil_append] at ho
  have hm : o.id ∈ List.range' 0 (crearAnilloInterior ++ crearCelosiaRadial q).length := by
    rw [← attachObjs_map_id]
    exact List.mem_map_of_mem Obj.id ho
  exact (List.mem_range'_1.mp hm).2

theorem attachObjs_length : ∀ (ds : List Desc) (n : ℕ), (attachObjs n ds).length = ds.length := by
  intro ds
  induction ds with
  | nil => intro n; rfl
  | cons d ds ih => intro n; simp [attachObjs, ih]

theorem attachRots_length : ∀ (ds : List Desc) (n : ℕ), (attachRots n ds).length = ds.length := by
  intro ds
  induction ds with
  | nil => intro n; rfl
  | cons d ds ih => intro n; simp [attachRots, ih]

theorem attachRots_map_fst :
    ∀ (ds : List Desc) (n : ℕ), (attachRots n ds).map Prod.fst = List.range' n ds.length := by
  intro ds
  induction ds with
  | nil => intro n; rfl
  | cons d ds ih => intro n; simp [attachRots, List.range', ih]

theorem crearAnillo_length : crearAnilloInterior.length = 6 := by
  simp [crearAnilloInterior, numPajaritasBase]

theorem crear_pEjemplo_length : (crearCelosiaRadial pEjemplo).length = 6 := by
  show (celosiaUpTo pEjemplo 1).length = 6
  rw [show celosiaUpTo pEjemplo 1 = [] ++ ringDescs pEjemplo 1 from rfl, List.nil_append,
    length_ringDescs, numPaj_pEjemplo]

theorem initSt_eq (q : Params) :
    initSt q = alignedMk (attachObjs 0 (crearAnilloInterior ++ crearCelosiaRadial q))
      (attachRots 0 (crearAnilloInterior ++ crearCelosiaRadial q))
      (0 + (crearAnilloInterior ++ crearCelosiaRadial q).length) := by
  unfold initSt
  rw [show st0 = alignedMk [] [] 0 from rfl, materializeAll_alignedMk, List.nil_append,
    List.nil_append]

theorem initSt_filter_nocel (q : Params) :
    (initSt q).objects.filter (fun o => !(esCelosia o)) = attachObjs 0 crearAnilloInterior := by
  rw [initSt_eq]
  show (attachObjs 0 (crearAnilloInterior ++ crearCelosiaRadial q)).filter
      (fun o => !(esCelosia o)) = _
  rw [attachObjs_append, List.filter_append, (attachObjs_filter_interior anillo_all_interior 0).1,
    (attachObjs_filter_celosia (crearCelosia_all_celosia q) _).2, List.append_nil]

/-! ### Lemmas about spin and the R key -/

theorem tickN_rots (s : St) : ∀ n, (tickN s n).originalRotations = s.originalRotations := by
  intro n
  induction n with
  | zero => rfl
  | succ m ih =>
    show (tick (tickN s m)).originalRotations = _
    rw [show (tick (tickN s m)).originalRotations = (tickN s m).originalRotations from rfl, ih]

theorem tickN_objects (s : St) :
    ∀ n, (tickN s n).objects = s.objects.map (fun o => tickF^[n] o) := by
  intro n
  induction n with
  | zero => simp [tickN]
  | succ m ih =>
    show (tick (tickN s m)).objects = _
    rw [show (tick (tickN s m)).objects = (tickN s m).objects.map tickF from rfl, ih,
      List.map_map]
    apply List.map_congr_left
    intro a _
    show tickF (tickF^[m] a) = tickF^[m + 1] a
    rw [Function.iterate_succ_apply']

theorem tickF_id (o : Obj) : (tickF o).id = o.id := by
  unfold tickF
  split <;> rfl

theorem tickF_iter_id (o : Obj) : ∀ n, (tickF^[n] o).id = o.id := by
  intro n
  induction n with
  | zero => rfl
  | succ m ih => rw [Function.iterate_succ_apply', tickF_id, ih]

theorem pressRF_id (rots : List (ℕ × RotVal)) (o : Obj) : (pressRF rots o).id = o.id := by
  unfold pressRF
  split <;> rfl

theorem tickF_iter_active {o : Obj} (h : o.spinActive = true) :
    ∀ n : ℕ, tickF^[n] o = { o with rotZ := ⟨o.rotZ.base, o.rotZ.extra + n * spinSpeed⟩ } := by
  intro n
  induction n with
  | zero =>
    show o = _
    cases o with
    | mk i d v a =>
      cases v
      simp
  | succ m ih =>
    rw [Function.iterate_succ_apply', ih]
    show tickF _ = _
    unfold tickF
    rw [if_pos h]
    unfold bumpRot
    have : o.rotZ.extra + (m : ℚ) * spinSpeed + spinSpeed
        = o.rotZ.extra + ((m : ℕ) + 1 : ℕ) * spinSpeed := by
      push_cast
      ring
    simp [this]

theorem nodup_id_unique :
    ∀ {l : List Obj}, (l.map Obj.id).Nodup → ∀ {a b : Obj}, a ∈ l → b ∈ l → a.id = b.id →
      a = b := by
  intro l
  induction l with
  | nil => intro _ a b ha; cases ha
  | cons x xs ih =>
    intro hnd a b ha hb hid
    rw [List.map_cons, List.nodup_cons] at hnd
    obtain ⟨hx, hxs⟩ := hnd
    rcases List.mem_cons.mp ha with rfl | ha' <;> rcases List.mem_cons.mp hb with rfl | hb'
    · rfl
    · exact absurd (hid ▸ List.mem_map_of_mem Obj.id hb') hx
    · exact absurd (List.mem_map_of_mem Obj.id ha') (by rw [hid]; exact hx)
    · exact ih hxs ha' hb' hid

/-! ### Claims about the layout engine -/

/-- Claim C1: for every ring index the engine computes the radial distance as
`ringSpacing*r + radialOffset*r` and the instance count as
`max(6, round(6 * (distance/1.0) * densityFactor))`, so the count is always
at least 6; and in the example scenario ringCount=2, ringSpacing=1,
radialOffset=0, densityFactor=2 it emits 12 instances on ring 1, 24 on
ring 2, 36 lattice instances in total (whatever the remaining parameters). -/
theorem C1_distancia_conteo_piso_y_ejemplo :
    (∀ (p : Params) (r : ℕ),
      distanciaAnillo p r = p.distanciaRepeticiones * r + p.desplazamientoRadial * r ∧
      numPajaritasAnillo p r =
        (max (6 : ℤ) (jround (6 * (distanciaAnillo p r / 1) * p.factorPajaritas))).toNat ∧
      6 ≤ numPajaritasAnillo p r) ∧
    (∀ e a o : ℚ,
      numPajaritasAnillo ⟨2, 1, e, a, o, 0, 2⟩ 1 = 12 ∧
      numPajaritasAnillo ⟨2, 1, e, a, o, 0, 2⟩ 2 = 24 ∧
      (crearCelosiaRadial ⟨2, 1, e, a, o, 0, 2⟩).length = 36) := by
  constructor
  · intro p r
    refine ⟨rfl, rfl, ?_⟩
    unfold numPajaritasAnillo
    calc 6 = ((numPajaritasBase : ℤ)).toNat := by rfl
      _ ≤ _ := Int.toNat_le_toNat (le_max_left _ _)
  · intro e a o
    have h1 : numPajaritasAnillo ⟨2, 1, e, a, o, 0, 2⟩ 1 = 12 := by
      norm_num [numPajaritasAnillo, distanciaAnillo, jround, radioBase, numPajaritasBase]
      rfl
    have h2 : numPajaritasAnillo ⟨2, 1, e, a, o, 0, 2⟩ 2 = 24 := by
      norm_num [numPajaritasAnillo, distanciaAnillo, jround, radioBase, numPajaritasBase]
      rfl
    refine ⟨h1, h2, ?_⟩
    show (celosiaUpTo ⟨2, 1, e, a, o, 0, 2⟩ 2).length = 36
    rw [show celosiaUpTo ⟨2, 1, e, a, o, 0, 2⟩ 2 =
      (([] : List Desc) ++ ringDescs ⟨2, 1, e, a, o, 0, 2⟩ 1) ++ ringDescs ⟨2, 1, e, a, o, 0, 2⟩ 2
      from rfl]
    simp [ringDescs, h1, h2]

/-- Claim C2: the instance emitted for ring `r`, slot `i` sits at position
`(distancia·cos(i·2π/n + offsetAngular·r), distancia·sin(i·2π/n + offsetAngular·r), alturaZ·r)`
and its initial rotation is the un-offset base angle `i·2π/n` for even slots
and that angle plus π for odd slots — independent of the spiral offset. -/
theorem C2_posicion_y_rotacion (p : Params) (r i : ℕ) (hr : 1 ≤ r)
    (hrc : r ≤ p.numRepeticiones) (hi : i < numPajaritasAnillo p r) :
    (crearCelosiaRadial p).get? (flatIdx p r i) = some (mkDescCelosia p r i) ∧
    posOf (mkDescCelosia p r i) =
      ((distanciaAnillo p r : ℝ) *
         Real.cos (i * (2 * Real.pi / numPajaritasAnillo p r) + (p.offsetAngular : ℝ) * r),
       (distanciaAnillo p r : ℝ) *
         Real.sin (i * (2 * Real.pi / numPajaritasAnillo p r) + (p.offsetAngular : ℝ) * r),
       (p.alturaZ : ℝ) * r) ∧
    rotOf (mkDescCelosia p r i) =
      (if i % 2 = 0 then (i : ℝ) * (2 * Real.pi / numPajaritasAnillo p r)
       else (i : ℝ) * (2 * Real.pi / numPajaritasAnillo p r) + Real.pi) := by
  refine ⟨get?_crearCelosiaRadial p r i hr hrc hi, ?_, ?_⟩
  · have harg : ((p.offsetAngular * (r : ℚ) : ℚ) : ℝ) = (p.offsetAngular : ℝ) * (r : ℝ) := by
      push_cast
      ring
    have hz : ((p.alturaZ * (r : ℚ) : ℚ) : ℝ) = (p.alturaZ : ℝ) * (r : ℝ) := by
      push_cast
      ring
    simp [posOf, anguloAjustado, anguloBase, angleStep, mkDescCelosia, harg, hz]
  · by_cases h2 : i % 2 = 0
    · have hdec : decide (i % 2 = 1) = false := by
        simp
        omega
      simp [rotOf, anguloBase, angleStep, mkDescCelosia, hdec, h2]
    · have h1 : i % 2 = 1 := (Nat.mod_two_eq_zero_or_one i).resolve_left h2
      have hdec : decide (i % 2 = 1) = true := by simp [h1]
      simp [rotOf, anguloBase, angleStep, mkDescCelosia, hdec, h2]

/-- Witness for C2 at the concrete example parameters, ring 1, slot 0. -/
theorem C2_posicion_y_rotacion_witness :
    (1 ≤ 1 ∧ 1 ≤ pEjemplo.numRepeticiones ∧ 0 < numPajaritasAnillo pEjemplo 1) ∧
    ((crearCelosiaRadial pEjemplo).get? (flatIdx pEjemplo 1 0) = some (mkDescCelosia pEjemplo 1 0) ∧
      posOf (mkDescCelosia pEjemplo 1 0) =
        ((distanciaAnillo pEjemplo 1 : ℝ) *
           Real.cos (0 * (2 * Real.pi / numPajaritasAnillo pEjemplo 1) + (pEjemplo.offsetAngular : ℝ) * 1),
         (distanciaAnillo pEjemplo 1 : ℝ) *
           Real.sin (0 * (2 * Real.pi / numPajaritasAnillo pEjemplo 1) + (pEjemplo.offsetAngular : ℝ) * 1),
         (pEjemplo.alturaZ : ℝ) * 1) ∧
      rotOf (mkDescCelosia pEjemplo 1 0) =
        (if 0 % 2 = 0 then ((0 : ℕ) : ℝ) * (2 * Real.pi / numPajaritasAnillo pEjemplo 1)
         else ((0 : ℕ) : ℝ) * (2 * Real.pi / numPajaritasAnillo pEjemplo 1) + Real.pi)) :=
  ⟨⟨le_rfl, by norm_num [pEjemplo], by rw [numPaj_pEjemplo]; norm_num⟩,
    by
      have h := C2_posicion_y_rotacion pEjemplo 1 0 le_rfl (by norm_num [pEjemplo])
        (by rw [numPaj_pEjemplo]; norm_num)
      simpa using h⟩

/-- Claim C7: with densityFactor and ringSpacing held fixed and
`ringSpacing + radialOffset ≥ 0`, the per-ring instance count computed by
the layout engine is non-decreasing in the ring index. -/
theorem C7_conteo_monotono (p : Params) (r₁ r₂ : ℕ)
    (_hsum : 0 ≤ p.distanciaRepeticiones + p.desplazamientoRadial)
    (h12 : r₁ ≤ r₂) :
    numPajaritasAnillo p r₁ ≤ numPajaritasAnillo p r₂ := by
  have hq : ∀ r : ℕ, (numPajaritasBase : ℚ) * (distanciaAnillo p r / radioBase) * p.factorPajaritas
      = (6 * (p.distanciaRepeticiones + p.desplazamientoRadial) * p.factorPajaritas) * r := by
    intro r
    simp only [distanciaAnillo, radioBase, numPajaritasBase]
    push_cast
    ring
  set c : ℚ := 6 * (p.distanciaRepeticiones + p.desplazamientoRadial) * p.factorPajaritas with hc
  rcases le_or_lt 0 c with hpos | hneg
  · unfold numPajaritasAnillo
    apply Int.toNat_le_toNat
    apply max_le_max (le_refl _)
    unfold jround
    apply Int.floor_le_floor
    rw [hq r₁, hq r₂]
    have : (r₁ : ℚ) ≤ (r₂ : ℚ) := by exact_mod_cast h12
    nlinarith
  · have h6 : ∀ r : ℕ, numPajaritasAnillo p r = 6 := by
      intro r
      unfold numPajaritasAnillo jround
      rw [max_eq_left]
      · rfl
      · have hcr : c * r ≤ 0 := by
          have : (0 : ℚ) ≤ (r : ℚ) := Nat.cast_nonneg r
          nlinarith
        rw [hq r]
        calc ⌊c * (r : ℚ) + 1/2⌋ ≤ ⌊(1/2 : ℚ)⌋ := Int.floor_le_floor (by linarith)
          _ ≤ (numPajaritasBase : ℤ) := by norm_num [numPajaritasBase]
    rw [h6 r₁, h6 r₂]

/-- Witness for C7 at the concrete example parameters, rings 1 and 2. -/
theorem C7_conteo_monotono_witness :
    (0 ≤ pEjemplo.distanciaRepeticiones + pEjemplo.desplazamientoRadial ∧ 1 ≤ 2) ∧
    numPajaritasAnillo pEjemplo 1 ≤ numPajaritasAnillo pEjemplo 2 :=
  ⟨⟨by norm_num [pEjemplo], by norm_num⟩,
    C7_conteo_monotono pEjemplo 1 2 (by norm_num [pEjemplo]) (by norm_num)⟩

/-- Claim C8: the color class of every lattice instance is determined by
`colorIndex = floor(g / instanceCount) + (g mod instanceCount)` with
`g = slot + r * instanceCount`: class A exactly when `colorIndex` is even. -/
theorem C8_clase_de_color (p : Params) (r i : ℕ) (hr : 1 ≤ r)
    (hrc : r ≤ p.numRepeticiones) (hi : i < numPajaritasAnillo p r) :
    mkDescCelosia p r i ∈ crearCelosiaRadial p ∧
    (mkDescCelosia p r i).indice = i + r * numPajaritasAnillo p r ∧
    (colorClassA (mkDescCelosia p r i) = true ↔
      ((i + r * numPajaritasAnillo p r) / numPajaritasAnillo p r
        + (i + r * numPajaritasAnillo p r) % numPajaritasAnillo p r) % 2 = 0) := by
  refine ⟨List.get?_mem (get?_crearCelosiaRadial p r i hr hrc hi), rfl, ?_⟩
  simp [colorClassA, colorIndexOf, mkDescCelosia]

/-- Witness for C8 at the concrete example parameters, ring 1, slot 0. -/
theorem C8_clase_de_color_witness :
    (1 ≤ 1 ∧ 1 ≤ pEjemplo.numRepeticiones ∧ 0 < numPajaritasAnillo pEjemplo 1) ∧
    (mkDescCelosia pEjemplo 1 0 ∈ crearCelosiaRadial pEjemplo ∧
      (mkDescCelosia pEjemplo 1 0).indice = 0 + 1 * numPajaritasAnillo pEjemplo 1 ∧
      (colorClassA (mkDescCelosia pEjemplo 1 0) = true ↔
        ((0 + 1 * numPajaritasAnillo pEjemplo 1) / numPajaritasAnillo pEjemplo 1
          + (0 + 1 * numPajaritasAnillo pEjemplo 1) % numPajaritasAnillo pEjemplo 1) % 2 = 0)) :=
  ⟨⟨le_rfl, by norm_num [pEjemplo], by rw [numPaj_pEjemplo]; norm_num⟩,
    C8_clase_de_color pEjemplo 1 0 le_rfl (by norm_num [pEjemplo])
      (by rw [numPaj_pEjemplo]; norm_num)⟩

/-- Claim C3: the layout engine is deterministic and side-effect-free — for
fixed parameters it always produces the same ordered descriptor list, and
the lattice instances materialized by a regeneration depend only on the
parameters, not on any prior registry state. -/
theorem C3_determinismo (p : Params) (s₁ s₂ : St)
    (h₁a : alineado s₁) (h₁n : sinDuplicados s₁)
    (h₂a : alineado s₂) (h₂n : sinDuplicados s₂) :
    crearCelosiaRadial p = crearCelosiaRadial p ∧
    descsCelosia (regenerarCelosia p s₁) = crearCelosiaRadial p ∧
    descsCelosia (regenerarCelosia p s₂) = crearCelosiaRadial p ∧
    descsCelosia (regenerarCelosia p s₁) = descsCelosia (regenerarCelosia p s₂) := by
  have e₁ := descsCelosia_regen p h₁a h₁n
  have e₂ := descsCelosia_regen p h₂a h₂n
  exact ⟨rfl, e₁, e₂, by rw [e₁, e₂]⟩

/-- Witness for C3: two startup states regenerated with the example params. -/
theorem C3_determinismo_witness :
    (alineado (initSt pEjemplo) ∧ sinDuplicados (initSt pEjemplo)) ∧
    descsCelosia (regenerarCelosia pEjemplo (initSt pEjemplo)) = crearCelosiaRadial pEjemplo :=
  ⟨⟨alineado_initSt pEjemplo, sinDuplicados_initSt pEjemplo⟩,
    (C3_determinismo pEjemplo (initSt pEjemplo) (initSt pEjemplo)
      (alineado_initSt pEjemplo) (sinDuplicados_initSt pEjemplo)
      (alineado_initSt pEjemplo) (sinDuplicados_initSt pEjemplo)).2.1⟩

/-- Claim C4: regenerating twice with the same parameters leaves the same
instance count, descriptors and positions as regenerating once — no stale
lattice instances accumulate in the registry or the scene. -/
theorem C4_regeneracion_pura (p : Params) (s : St) (ha : alineado s)
    (hn : sinDuplicados s) (hf : idsFrescos s) :
    (regenerarCelosia p (regenerarCelosia p s)).objects.map Obj.desc
        = (regenerarCelosia p s).objects.map Obj.desc ∧
    (regenerarCelosia p (regenerarCelosia p s)).objects.length
        = (regenerarCelosia p s).objects.length ∧
    (regenerarCelosia p (regenerarCelosia p s)).scene.length
        = (regenerarCelosia p s).scene.length ∧
    (regenerarCelosia p (regenerarCelosia p s)).objects.map (fun o => posOf o.desc)
        = (regenerarCelosia p s).objects.map (fun o => posOf o.desc) := by
  have ha1 := alineado_regen p ha
  have hn1 := sinDuplicados_regen p ha hn hf
  have e1 := regen_eq p ha hn
  have e2 := regen_eq p ha1 hn1
  have hobs1 : (regenerarCelosia p s).objects
      = s.objects.filter (fun o => !(esCelosia o)) ++ attachObjs s.nextId (crearCelosiaRadial p) := by
    rw [e1]
    rfl
  have hfil := regen_filter_nocel p ha hn
  have hobs2 : (regenerarCelosia p (regenerarCelosia p s)).objects
      = s.objects.filter (fun o => !(esCelosia o))
        ++ attachObjs (regenerarCelosia p s).nextId (crearCelosiaRadial p) := by
    rw [e2]
    show (regenerarCelosia p s).objects.filter (fun o => !(esCelosia o)) ++ _ = _
    rw [hfil]
  have hdesc : (regenerarCelosia p (regenerarCelosia p s)).objects.map Obj.desc
      = (regenerarCelosia p s).objects.map Obj.desc := by
    rw [hobs1, hobs2, List.map_append, List.map_append, attachObjs_map_desc, attachObjs_map_desc]
  refine ⟨hdesc, ?_, ?_, ?_⟩
  · have := congrArg List.length hdesc
    simpa using this
  · have ha2 := alineado_regen p ha1
    have hs1 : (regenerarCelosia p s).scene.length = (regenerarCelosia p s).objects.length := by
      rw [ha1.2.2.2]
      simp [idsOf]
    have hs2 : (regenerarCelosia p (regenerarCelosia p s)).scene.length
        = (regenerarCelosia p (regenerarCelosia p s)).objects.length := by
      rw [ha2.2.2.2]
      simp [idsOf]
    rw [hs1, hs2]
    have := congrArg List.length hdesc
    simpa using this
  · have h1 : (regenerarCelosia p (regenerarCelosia p s)).objects.map (fun o => posOf o.desc)
        = ((regenerarCelosia p (regenerarCelosia p s)).objects.map Obj.desc).map posOf := by
      rw [List.map_map]
      rfl
    have h2 : (regenerarCelosia p s).objects.map (fun o => posOf o.desc)
        = ((regenerarCelosia p s).objects.map Obj.desc).map posOf := by
      rw [List.map_map]
      rfl
    rw [h1, h2, hdesc]

/-- Witness for C4 at the startup state of the example parameters. -/
theorem C4_regeneracion_pura_witness :
    (alineado (initSt pEjemplo) ∧ sinDuplicados (initSt pEjemplo) ∧ idsFrescos (initSt pEjemplo)) ∧
    (regenerarCelosia pEjemplo (regenerarCelosia pEjemplo (initSt pEjemplo))).objects.map Obj.desc
      = (regenerarCelosia pEjemplo (initSt pEjemplo)).objects.map Obj.desc :=
  ⟨⟨alineado_initSt pEjemplo, sinDuplicados_initSt pEjemplo, idsFrescos_initSt pEjemplo⟩,
    (C4_regeneracion_pura pEjemplo (initSt pEjemplo) (alineado_initSt pEjemplo)
      (sinDuplicados_initSt pEjemplo) (idsFrescos_initSt pEjemplo)).1⟩

/-- Claim C10: the six inner-ring instances are created exactly once at
startup, and regeneration removes and recreates only `'celosia'`-tagged
instances — every inner-ring instance survives regeneration unchanged (same
id, descriptor, rotation) and stays in the scene. -/
theorem C10_anillo_interior_fijo (p q : Params) (s : St)
    (ha : alineado s) (hn : sinDuplicados s) :
    crearAnilloInterior.length = 6 ∧
    ((initSt q).objects.filter (fun o => !(esCelosia o))).map Obj.desc = crearAnilloInterior ∧
    (regenerarCelosia p s).objects.filter (fun o => !(esCelosia o))
        = s.objects.filter (fun o => !(esCelosia o)) ∧
    (∀ o ∈ s.objects, esCelosia o = false →
      o ∈ (regenerarCelosia p s).objects ∧ o.id ∈ (regenerarCelosia p s).scene) := by
  refine ⟨by simp [crearAnilloInterior, numPajaritasBase], ?_, regen_filter_nocel p ha hn, ?_⟩
  · unfold initSt
    rw [show st0 = alignedMk [] [] 0 from rfl, materializeAll_alignedMk]
    show ((([] : List Obj) ++ attachObjs 0 (crearAnilloInterior ++ crearCelosiaRadial q)).filter
      (fun o => !(esCelosia o))).map Obj.desc = _
    rw [List.nil_append, attachObjs_append, List.filter_append,
      (attachObjs_filter_interior anillo_all_interior 0).1,
      (attachObjs_filter_celosia (crearCelosia_all_celosia q) _).2,
      List.append_nil, attachObjs_map_desc]
  · intro o ho hno
    have hmem : o ∈ s.objects.filter (fun o => !(esCelosia o)) :=
      List.mem_filter.mpr ⟨ho, by simp [hno]⟩
    have hobs : (regenerarCelosia p s).objects
        = s.objects.filter (fun o => !(esCelosia o))
          ++ attachObjs s.nextId (crearCelosiaRadial p) := by
      rw [regen_eq p ha hn]
      rfl
    constructor
    · rw [hobs]
      exact List.mem_append_left _ hmem
    · have hsc := (alineado_regen p ha).2.2.2
      rw [hsc]
      apply List.mem_map_of_mem Obj.id
      rw [hobs]
      exact List.mem_append_left _ hmem

/-- Witness for C10 at the startup state of the example parameters. -/
theorem C10_anillo_interior_fijo_witness :
    (alineado (initSt pEjemplo) ∧ sinDuplicados (initSt pEjemplo)) ∧
    (regenerarCelosia pEjemplo (initSt pEjemplo)).objects.filter (fun o => !(esCelosia o))
      = (initSt pEjemplo).objects.filter (fun o => !(esCelosia o)) :=
  ⟨⟨alineado_initSt pEjemplo, sinDuplicados_initSt pEjemplo⟩,
    (C10_anillo_interior_fijo pEjemplo pEjemplo (initSt pEjemplo)
      (alineado_initSt pEjemplo) (sinDuplicados_initSt pEjemplo)).2.2.1⟩

/-- Counterexample to claim C5 as stated: after regenerating from the
startup state, the initial-rotation bookkeeping still holds an entry (id 6,
the first removed lattice instance) that no longer corresponds to any
registered object, and its length no longer matches the instance list. -/
theorem C5_contraejemplo :
    (∃ e ∈ (regenerarCelosia pEjemplo (initSt pEjemplo)).originalRotations,
        e.1 ∉ idsOf (regenerarCelosia pEjemplo (initSt pEjemplo))) ∧
    (regenerarCelosia pEjemplo (initSt pEjemplo)).originalRotations.length
      ≠ (regenerarCelosia pEjemplo (initSt pEjemplo)).objects.length := by
  have ha := alineado_initSt pEjemplo
  have hnd := sinDuplicados_initSt pEjemplo
  have hrots := rots_regen pEjemplo ha
  have hlen_ds : (crearAnilloInterior ++ crearCelosiaRadial pEjemplo).length = 12 := by
    rw [List.length_append, crearAnillo_length, crear_pEjemplo_length]
  have hinit_rots : (initSt pEjemplo).originalRotations
      = attachRots 0 (crearAnilloInterior ++ crearCelosiaRadial pEjemplo) := by
    rw [initSt_eq]
    rfl
  have hinit_nextId : (initSt pEjemplo).nextId = 12 := by
    rw [initSt_eq]
    show 0 + (crearAnilloInterior ++ crearCelosiaRadial pEjemplo).length = 12
    rw [hlen_ds]
  have hids := ids_regen pEjemplo ha hnd
  rw [initSt_filter_nocel, attachObjs_map_id, crearAnillo_length, hinit_nextId,
    crear_pEjemplo_length] at hids
  constructor
  · have h6mem : (6 : ℕ)
        ∈ ((regenerarCelosia pEjemplo (initSt pEjemplo)).originalRotations).map Prod.fst := by
      rw [hrots, List.map_append, hinit_rots, attachRots_map_fst, hlen_ds]
      apply List.mem_append_left
      rw [List.mem_range'_1]
      omega
    obtain ⟨e, he, hfst⟩ := List.mem_map.mp h6mem
    refine ⟨e, he, ?_⟩
    rw [hids, hfst]
    intro hc
    rcases List.mem_append.mp hc with hL | hR
    · rw [List.mem_range'_1] at hL
      omega
    · rw [List.mem_range'_1] at hR
      omega
  · have hobjlen : (regenerarCelosia pEjemplo (initSt pEjemplo)).objects.length = 12 := by
      rw [regen_eq pEjemplo ha hnd]
      show ((initSt pEjemplo).objects.filter (fun o => !(esCelosia o))
        ++ attachObjs (initSt pEjemplo).nextId (crearCelosiaRadial pEjemplo)).length = 12
      rw [List.length_append, initSt_filter_nocel, attachObjs_length, attachObjs_length,
        crearAnillo_length, crear_pEjemplo_length]
    rw [hobjlen, hrots, List.length_append, hinit_rots, attachRots_length, attachRots_length,
      hlen_ds, crear_pEjemplo_length]
    omega

/-- Claim C5 (amended): after every removal performed by `regenerarCelosia`
the center-marker, pivot-marker and connection-line collections are purged
at the removed instances' indices and stay index-aligned with the main
instance list and the scene, but the initial-rotation bookkeeping
(`originalRotations`) is never purged: the records of removed lattice
instances are retained (the list only grows, by one appended record per
newly created instance). -/
theorem C5_superposiciones_amended (p : Params) (s : St) (ha : alineado s) :
    alineado (regenerarCelosia p s) ∧
    (regenerarCelosia p s).originalRotations
      = s.originalRotations ++ attachRots s.nextId (crearCelosiaRadial p) :=
  ⟨alineado_regen p ha, rots_regen p ha⟩

/-- Witness for the amended C5 at the startup state of the example params. -/
theorem C5_superposiciones_amended_witness :
    alineado (initSt pEjemplo) ∧
    (alineado (regenerarCelosia pEjemplo (initSt pEjemplo)) ∧
      (regenerarCelosia pEjemplo (initSt pEjemplo)).originalRotations
        = (initSt pEjemplo).originalRotations
          ++ attachRots (initSt pEjemplo).nextId (crearCelosiaRadial pEjemplo)) :=
  ⟨alineado_initSt pEjemplo,
    C5_superposiciones_amended pEjemplo (initSt pEjemplo) (alineado_initSt pEjemplo)⟩

/-- Claim C6: every parameter-controller key action preserves the parameter
invariants via saturating clamps at the point of mutation, and a decrement
at a floor leaves the parameter state unchanged. -/
theorem C6_invariantes_controlador (a : Accion) (p : Params) (h : invariantes p) :
    invariantes (applyAccion a p) ∧
    (p.numRepeticiones = 1 → applyAccion Accion.decRepeticiones p = p) ∧
    (p.distanciaRepeticiones = 1/5 → applyAccion Accion.decDistancia p = p) ∧
    (p.escalaUniforme = 1/10 → applyAccion Accion.decEscala p = p) ∧
    (p.alturaZ = 0 → applyAccion Accion.decAltura p = p) ∧
    (p.factorPajaritas = 1 → applyAccion Accion.decFactor p = p) := by
  obtain ⟨h1, h2, h3, h4, h5, h6⟩ := h
  refine ⟨?_, ?_, ?_, ?_, ?_, ?_⟩
  · cases a with
    | decRepeticiones => exact ⟨le_max_left _ _, h2, h3, h4, h5, h6⟩
    | incRepeticiones =>
      refine ⟨?_, h2, h3, h4, h5, h6⟩
      show 1 ≤ p.numRepeticiones + 1
      omega
    | decDistancia => exact ⟨h1, le_max_left _ _, h3, h4, h5, h6⟩
    | incDistancia =>
      refine ⟨h1, ?_, h3, h4, h5, h6⟩
      show 1/5 ≤ p.distanciaRepeticiones + incremento
      unfold incremento
      linarith
    | decEscala =>
      exact ⟨h1, h2, le_max_left _ _,
        max_le (by norm_num) (by unfold incremento; linarith), h5, h6⟩
    | incEscala =>
      exact ⟨h1, h2, le_min (by norm_num) (by unfold incremento; linarith),
        min_le_left _ _, h5, h6⟩
    | decAltura => exact ⟨h1, h2, h3, h4, le_max_left _ _, h6⟩
    | incAltura =>
      refine ⟨h1, h2, h3, h4, ?_, h6⟩
      show 0 ≤ p.alturaZ + incremento
      unfold incremento
      linarith
    | decOffsetAngular => exact ⟨h1, h2, h3, h4, h5, h6⟩
    | incOffsetAngular => exact ⟨h1, h2, h3, h4, h5, h6⟩
    | decRadial => exact ⟨h1, h2, h3, h4, h5, h6⟩
    | incRadial => exact ⟨h1, h2, h3, h4, h5, h6⟩
    | decFactor => exact ⟨h1, h2, h3, h4, h5, le_max_left _ _⟩
    | incFactor =>
      refine ⟨h1, h2, h3, h4, h5, ?_⟩
      show 1 ≤ p.factorPajaritas + 1/10
      linarith
  · intro he
    show { p with numRepeticiones := max 1 (p.numRepeticiones - 1) } = p
    rw [show max 1 (p.numRepeticiones - 1) = p.numRepeticiones from by omega]
  · intro he
    show { p with distanciaRepeticiones := max (1/5) (p.distanciaRepeticiones - incremento) } = p
    rw [he, show max ((1:ℚ)/5) (1/5 - incremento) = (1:ℚ)/5 from
      max_eq_left (by norm_num [incremento]), ← he]
  · intro he
    show { p with escalaUniforme := max (1/10) (p.escalaUniforme - incremento) } = p
    rw [he, show max ((1:ℚ)/10) (1/10 - incremento) = (1:ℚ)/10 from
      max_eq_left (by norm_num [incremento]), ← he]
  · intro he
    show { p with alturaZ := max 0 (p.alturaZ - incremento) } = p
    rw [he, show max (0:ℚ) (0 - incremento) = (0:ℚ) from
      max_eq_left (by norm_num [incremento]), ← he]
  · intro he
    show { p with factorPajaritas := max 1 (p.factorPajaritas - 1/10) } = p
    rw [he, show max (1:ℚ) (1 - 1/10) = (1:ℚ) from max_eq_left (by norm_num), ← he]

/-- Witness for C6: decrementing the ring count at its floor of 1. -/
theorem C6_invariantes_controlador_witness :
    invariantes pEjemplo ∧ invariantes (applyAccion Accion.decRepeticiones pEjemplo) ∧
    (pEjemplo.numRepeticiones = 1 → applyAccion Accion.decRepeticiones pEjemplo = pEjemplo) := by
  have hinv : invariantes pEjemplo := by norm_num [invariantes, pEjemplo]
  have h := C6_invariantes_controlador Accion.decRepeticiones pEjemplo hinv
  exact ⟨hinv, h.1, h.2.1⟩

/-- Claim C9: activating global spin for N ticks and then deactivating it
restores every instance's rotation exactly to its recorded initial value,
not to the value accumulated during the spin. -/
theorem C9_restaurar_pose (s : St) (o : Obj) (v0 : RotVal) (N : ℕ)
    (hmem : o ∈ s.objects) (hnd : sinDuplicados s) (hina : o.spinActive = false)
    (hfind : buscarRot o.id s.originalRotations = some v0) (hrot : o.rotZ = v0) :
    ∀ o' ∈ (pressR (tickN (pressR s) N)).objects, o'.id = o.id →
      o'.rotZ = v0 ∧ realRot o'.rotZ = realRot v0 := by
  intro o' ho' hid
  have hrots2 : (tickN (pressR s) N).originalRotations = s.originalRotations := by
    rw [tickN_rots]
    rfl
  have hobj : (pressR (tickN (pressR s) N)).objects
      = s.objects.map (fun b => pressRF s.originalRotations
          (tickF^[N] (pressRF s.originalRotations b))) := by
    show (tickN (pressR s) N).objects.map (pressRF (tickN (pressR s) N).originalRotations) = _
    rw [hrots2, tickN_objects]
    show ((s.objects.map (pressRF s.originalRotations)).map (fun b => tickF^[N] b)).map
      (pressRF s.originalRotations) = _
    rw [List.map_map, List.map_map]
    rfl
  rw [hobj] at ho'
  obtain ⟨b, hb, rfl⟩ := List.mem_map.mp ho'
  have hbid : b.id = o.id := by
    rw [← hid, pressRF_id, tickF_iter_id, pressRF_id]
  have hbo : b = o := nodup_id_unique hnd hb hmem hbid
  subst hbo
  have s1 : pressRF s.originalRotations b = { b with spinActive := true } := by
    unfold pressRF
    rw [if_neg (by rw [hina]; exact Bool.false_ne_true)]
  have s2 := tickF_iter_active (show ({ b with spinActive := true } : Obj).spinActive = true
    from rfl) N
  have s3 : pressRF s.originalRotations (tickF^[N] ({ b with spinActive := true }))
      = { b with spinActive := false, rotZ := v0 } := by
    rw [s2]
    unfold pressRF
    rw [if_pos rfl]
    simp [hfind]
  rw [s1, s3]
  exact ⟨rfl, rfl⟩

/-- Witness for C9: the one-object rest state spun for 3 ticks. -/
theorem C9_restaurar_pose_witness :
    (objEj ∈ sEj.objects ∧ sinDuplicados sEj ∧ objEj.spinActive = false ∧
      buscarRot objEj.id sEj.originalRotations = some vEj ∧ objEj.rotZ = vEj) ∧
    (∀ o' ∈ (pressR (tickN (pressR sEj) 3)).objects, o'.id = objEj.id →
      o'.rotZ = vEj ∧ realRot o'.rotZ = realRot vEj) :=
  ⟨⟨by simp [sEj], by simp [sinDuplicados, idsOf, sEj], rfl, rfl, rfl⟩,
    C9_restaurar_pose sEj objEj vEj 3 (by simp [sEj])
      (by simp [sinDuplicados, idsOf, sEj]) rfl rfl rfl⟩

end GeoVisual
